import Mathlib

/-!
Verification of the Tasmota IR integration (custom_components: fan.py,
climate.py, button.py, remote.py, const.py).

The embedding models:

* the outbound command encoder: building the Protocol/Bits/Data/Repeat JSON
  object (`json.dumps(..., separators=(',', ':'))` with its default
  `ensure_ascii=True` escaping), percent-encoding it (`urllib.parse.quote`
  with its default safe set), and interpolating it into the
  `cmnd=IRsend%20<encoded>` command string;
* a spec-side decoder (percent-decoding plus JSON parsing of the fixed
  object shape) used to state the round-trip property;
* the per-entity state machines (fan, climate, button, remote): their
  constructors, command handlers and availability updates, with the HTTP
  round-trip abstracted into an `HttpOutcome` environment parameter.

Strings are represented as lists of Unicode code points (`List Nat`).
-/

/-! ## Character and hex-digit helpers -/

/-- Code points of a Lean string literal, used to transcribe the fixed text
fragments appearing in the Python sources. -/
def strCodes (s : String) : List Nat := s.toList.map Char.toNat

/-- Hex-digit test, both cases (as accepted by JSON `\u` escapes and by
`urllib.parse.unquote`). -/
def isHexCode (c : Nat) : Bool :=
  decide ((48 ≤ c ∧ c ≤ 57) ∨ (97 ≤ c ∧ c ≤ 102) ∨ (65 ≤ c ∧ c ≤ 70))

/-- Value of a hex digit (0 for non-digits). -/
def hexVal (c : Nat) : Nat :=
  if 48 ≤ c ∧ c ≤ 57 then c - 48
  else if 97 ≤ c ∧ c ≤ 102 then c - 87
  else if 65 ≤ c ∧ c ≤ 70 then c - 55
  else 0

/-- Lowercase hex digit, as produced by `json.dumps`'s `\uXXXX` escapes. -/
def hexDigL (n : Nat) : Nat := if n < 10 then 48 + n else 87 + n

/-- Uppercase hex digit, as produced by `urllib.parse.quote`'s `%XX`. -/
def hexDigU (n : Nat) : Nat := if n < 10 then 48 + n else 55 + n

/-- Four lowercase hex digits of a UTF-16 code unit (`'\u%04x'`). -/
def toHex4 (u : Nat) : List Nat :=
  [hexDigL (u / 4096 % 16), hexDigL (u / 256 % 16), hexDigL (u / 16 % 16), hexDigL (u % 16)]

/-! ## JSON string escaping (`json.dumps`, `ensure_ascii=True`) -/

/-- UTF-16 code units of one code point: code points at or above `0x10000`
become a surrogate pair, exactly as `json.dumps` emits them. -/
def utf16Units (c : Nat) : List Nat :=
  if c < 65536 then [c]
  else [55296 + (c - 65536) / 1024, 56320 + (c - 65536) % 1024]

/-- ASCII escape of one UTF-16 code unit, following Python's
`json.encoder.ESCAPE_DCT` / `ESCAPE_ASCII`: named escapes for
`" \ \b \t \n \f \r`, printable ASCII (0x20–0x7E) literal, everything
else as `\uXXXX` with lowercase hex. -/
def escapeUnit (u : Nat) : List Nat :=
  if u = 34 then [92, 34]
  else if u = 92 then [92, 92]
  else if u = 8 then [92, 98]
  else if u = 9 then [92, 116]
  else if u = 10 then [92, 110]
  else if u = 12 then [92, 102]
  else if u = 13 then [92, 114]
  else if 32 ≤ u ∧ u ≤ 126 then [u]
  else 92 :: 117 :: toHex4 u

/-- Concatenation of the images of a list's elements. -/
def concatMap (f : Nat → List Nat) : List Nat → List Nat
  | [] => []
  | c :: t => f c ++ concatMap f t

/-- Body of a JSON string literal for a Python string. -/
def escapeString (s : List Nat) : List Nat := concatMap escapeUnit (concatMap utf16Units s)

/-- A full JSON string literal, quotes included. -/
def jsonString (s : List Nat) : List Nat := 34 :: (escapeString s ++ [34])

/-! ## JSON integer serialization (`json.dumps` of a Python `int`) -/

/-- Decimal digits (ASCII, most significant first) of a positive number;
fuel-driven so that it evaluates by `decide` (fuel `n` suffices since a
positive `n` has at most `n` digits). -/
def natDigitsAux : Nat → Nat → List Nat
  | 0, _ => []
  | f + 1, n => if n = 0 then [] else natDigitsAux f (n / 10) ++ [n % 10 + 48]

/-- ASCII decimal representation of a natural number. -/
def natDigits (n : Nat) : List Nat := if n = 0 then [48] else natDigitsAux n n

/-- ASCII decimal representation of a Python integer (`repr(int)`). -/
def serializeInt (i : Int) : List Nat :=
  if i < 0 then 45 :: natDigits i.natAbs else natDigits i.toNat

/-! ## The InfraredCommand object and its JSON text -/

/-- The `data` payload of an IR code: the configuration may give a string
(hex text such as `"0x44BB01FE"`) or an integer. -/
inductive JData where
  | s (str : List Nat)
  | i (int : Int)
deriving DecidableEq

/-- The Protocol/Bits/Data/Repeat object built by `_send_ir_command`
(fan.py, remote.py) and `async_press` (button.py).  `repeatCount` is the
`Repeat` field (`repeat` is a Lean keyword). -/
structure IRCommand where
  protocol : List Nat
  bits : Int
  data : JData
  repeatCount : Int
deriving DecidableEq

/-- JSON text of a `data` payload. -/
def serializeJData : JData → List Nat
  | .s str => jsonString str
  | .i n => serializeInt n

/-- `json.dumps(ir_data, separators=(',', ':'))`: the compact JSON text of
the command object, in the insertion order Protocol, Bits, Data, Repeat. -/
def jsonDumpsIR (c : IRCommand) : List Nat :=
  strCodes "\x7b\"Protocol\":" ++ jsonString c.protocol ++
  strCodes ",\"Bits\":" ++ serializeInt c.bits ++
  strCodes ",\"Data\":" ++ serializeJData c.data ++
  strCodes ",\"Repeat\":" ++ serializeInt c.repeatCount ++ strCodes "\x7d"

/-! ## Percent-encoding (`urllib.parse.quote` with default `safe='/'`) -/

/-- Bytes `quote` leaves literal: ALPHA, DIGIT, `_ . - ~` and the default
safe character `/`. -/
def isUnreservedByte (b : Nat) : Bool :=
  decide ((48 ≤ b ∧ b ≤ 57) ∨ (65 ≤ b ∧ b ≤ 90) ∨ (97 ≤ b ∧ b ≤ 122) ∨
    b = 95 ∨ b = 46 ∨ b = 45 ∨ b = 126 ∨ b = 47)

/-- Percent-encoding of a single byte (`%XX` with uppercase hex). -/
def percentEncodeByte (b : Nat) : List Nat :=
  if isUnreservedByte b then [b] else [37, hexDigU (b / 16), hexDigU (b % 16)]

/-- `urllib.parse.quote` over an ASCII string. -/
def percentEncode (bs : List Nat) : List Nat := concatMap percentEncodeByte bs

/-- `urllib.parse.unquote`: a `%` followed by two hex digits decodes to the
byte; anything else passes through. -/
def percentDecode : List Nat → List Nat
  | [] => []
  | [c] => [c]
  | [c, d] => [c, d]
  | c :: h1 :: h2 :: rest2 =>
    if c = 37 then
      if isHexCode h1 && isHexCode h2 then
        (hexVal h1 * 16 + hexVal h2) :: percentDecode rest2
      else 37 :: percentDecode (h1 :: h2 :: rest2)
    else c :: percentDecode (h1 :: h2 :: rest2)
  termination_by xs => xs.length
  decreasing_by all_goals (simp [List.length_cons]; try omega)

/-- The command string interpolated into the request URL:
`cmnd=IRsend%20{urllib.parse.quote(json.dumps(ir_data))}` (fan.py line 237,
button.py line 147, remote.py line 106). -/
def irCommandString (c : IRCommand) : List Nat :=
  strCodes "cmnd=IRsend%20" ++ percentEncode (jsonDumpsIR c)

/-! ## Spec-side decoder: JSON parsing of the fixed object shape -/

/-- Value of a named (single-character) JSON escape. -/
def namedEscape (e : Nat) : Option Nat :=
  if e = 34 then some 34
  else if e = 92 then some 92
  else if e = 47 then some 47
  else if e = 98 then some 8
  else if e = 102 then some 12
  else if e = 110 then some 10
  else if e = 114 then some 13
  else if e = 116 then some 9
  else none

/-- Value of four hex digits. -/
def hexQuad (a b c d : Nat) : Nat :=
  ((hexVal a * 16 + hexVal b) * 16 + hexVal c) * 16 + hexVal d

/-- Parse the body of a JSON string literal up to its closing quote,
returning the UTF-16 code units and the remaining input. -/
def parseUnits : List Nat → Option (List Nat × List Nat)
  | [] => none
  | c :: rest =>
    if c = 34 then some ([], rest)
    else if c = 92 then
      match rest with
      | [] => none
      | e :: rest2 =>
        if e = 117 then
          match rest2 with
          | a :: b :: c3 :: d :: rest3 =>
            if isHexCode a && isHexCode b && isHexCode c3 && isHexCode d then
              (parseUnits rest3).map (fun p => (hexQuad a b c3 d :: p.1, p.2))
            else none
          | _ => none
        else
          match namedEscape e with
          | some v => (parseUnits rest2).map (fun p => (v :: p.1, p.2))
          | none => none
    else if c < 32 then none
    else (parseUnits rest).map (fun p => (c :: p.1, p.2))

/-- Merge adjacent high/low surrogate code units into code points, as the
JSON decoder does for `\uXXXX\uXXXX` pairs. -/
def combineSurrogates : List Nat → List Nat
  | [] => []
  | [h] => [h]
  | h :: l :: t2 =>
    if 55296 ≤ h ∧ h ≤ 56319 ∧ 56320 ≤ l ∧ l ≤ 57343 then
      (65536 + (h - 55296) * 1024 + (l - 56320)) :: combineSurrogates t2
    else h :: combineSurrogates (l :: t2)
  termination_by xs => xs.length
  decreasing_by all_goals (simp [List.length_cons]; try omega)

/-- Parse a JSON string literal (opening quote included). -/
def parseJString (xs : List Nat) : Option (List Nat × List Nat) :=
  match xs with
  | [] => none
  | c :: rest =>
    if c = 34 then (parseUnits rest).map (fun p => (combineSurrogates p.1, p.2))
    else none

/-- Accumulate decimal digits. -/
def parseNatGo : Nat → List Nat → Nat × List Nat
  | acc, [] => (acc, [])
  | acc, d :: rest =>
    if 48 ≤ d ∧ d ≤ 57 then parseNatGo (acc * 10 + (d - 48)) rest else (acc, d :: rest)

/-- Parse a nonempty run of decimal digits. -/
def parseNat (xs : List Nat) : Option (Nat × List Nat) :=
  match xs with
  | [] => none
  | d :: rest => if 48 ≤ d ∧ d ≤ 57 then some (parseNatGo 0 (d :: rest)) else none

/-- Parse a JSON integer (optional leading minus sign). -/
def parseInt (xs : List Nat) : Option (Int × List Nat) :=
  match xs with
  | [] => none
  | c :: rest =>
    if c = 45 then (parseNat rest).map (fun p => (-(p.1 : Int), p.2))
    else (parseNat (c :: rest)).map (fun p => ((p.1 : Int), p.2))

/-- Parse a `data` payload: a string if it opens with a quote, otherwise an
integer. -/
def parseJData (xs : List Nat) : Option (JData × List Nat) :=
  match xs with
  | [] => none
  | c :: rest =>
    if c = 34 then (parseJString (c :: rest)).map (fun p => (JData.s p.1, p.2))
    else (parseInt (c :: rest)).map (fun p => (JData.i p.1, p.2))

/-- Consume an expected literal fragment. -/
def expectChunk : List Nat → List Nat → Option (List Nat)
  | [], xs => some xs
  | _ :: _, [] => none
  | p :: ps, x :: xs => if x = p then expectChunk ps xs else none

/-- Parse the full Protocol/Bits/Data/Repeat object produced by the
encoder. -/
def parseIRCommand (xs : List Nat) : Option IRCommand :=
  (expectChunk (strCodes "\x7b\"Protocol\":") xs).bind fun xs1 =>
  (parseJString xs1).bind fun p1 =>
  (expectChunk (strCodes ",\"Bits\":") p1.2).bind fun xs2 =>
  (parseInt xs2).bind fun p2 =>
  (expectChunk (strCodes ",\"Data\":") p2.2).bind fun xs3 =>
  (parseJData xs3).bind fun p3 =>
  (expectChunk (strCodes ",\"Repeat\":") p3.2).bind fun xs4 =>
  (parseInt xs4).bind fun p4 =>
  (expectChunk (strCodes "\x7d") p4.2).bind fun xs5 =>
  if xs5 = [] then some ⟨p1.1, p2.1, p3.1, p4.1⟩ else none

/-! ## Well-formedness of Python strings -/

/-- A Unicode scalar value: the code points a well-formed string holds. -/
def ValidScalar (c : Nat) : Prop := c < 55296 ∨ (57344 ≤ c ∧ c < 1114112)

/-- All code points of a string are scalar values. -/
def ValidString (s : List Nat) : Prop := ∀ c ∈ s, ValidScalar c

/-- Well-formedness of a `data` payload. -/
def ValidData : JData → Prop
  | .s str => ValidString str
  | .i _ => True

instance (c : Nat) : Decidable (ValidScalar c) := by unfold ValidScalar; infer_instance

instance (s : List Nat) : Decidable (ValidString s) := by unfold ValidString; infer_instance

instance (d : JData) : Decidable (ValidData d) := by cases d <;> unfold ValidData <;> infer_instance

/-! ## HTTP round-trip model

The outcome of one `requests.get` call, as far as the handlers can
observe it: the request may fail in transport (connection error, timeout —
both raise `requests.exceptions.RequestException`), or return a response
with a status code and a body that `response.json()` may or may not be able
to parse. -/

/-- Environment outcome of a single outbound HTTP request. -/
inductive HttpOutcome where
  | transportError
  | timeout
  | response (status : Nat) (bodyParses : Bool)
deriving DecidableEq

/-- `requests.Response.raise_for_status` raises `HTTPError` exactly for
4xx client errors and 5xx server errors. -/
def raiseForStatusErrors (st : Nat) : Bool := decide (400 ≤ st ∧ st < 600)

/-- The error kinds a handler can catch: `requests.exceptions.RequestException`
(transport failures, timeouts, `raise_for_status`) and any other exception
(in particular `response.json()` failing on an unparseable body). -/
inductive SendError where
  | requestException
  | jsonError
deriving DecidableEq

/-- The `try` block of `_send_ir_command` / `_send_hvac_command` /
`async_press`: perform the request, `raise_for_status`, then parse the
body with `response.json()`. -/
def sendAttempt : HttpOutcome → Except SendError Unit
  | .transportError => .error .requestException
  | .timeout => .error .requestException
  | .response st body =>
    if raiseForStatusErrors st then .error .requestException
    else if body then .ok () else .error .jsonError

/-- Availability resulting from a command send: the `except` clauses catch
every `SendError` and record `False`; the success path records `True`.
Totality of this function is the embedding of "no exception propagates to
the caller". -/
def sendOutcomeOk (o : HttpOutcome) : Bool :=
  match sendAttempt o with
  | .ok _ => true
  | .error _ => false

/-- The `try` block of `async_update`: request `cmnd=Status`, then only
`raise_for_status` — the body is never parsed. -/
def probeAttempt : HttpOutcome → Except SendError Unit
  | .transportError => .error .requestException
  | .timeout => .error .requestException
  | .response st _ =>
    if raiseForStatusErrors st then .error .requestException else .ok ()

/-- Availability resulting from the reachability probe. -/
def probeOutcomeOk (o : HttpOutcome) : Bool :=
  match probeAttempt o with
  | .ok _ => true
  | .error _ => false

/-! ## Fan entity (fan.py `TasmotaIRFan`) -/

/-- Mutable state of the fan entity.  `percentage` is an `Option` because
`async_set_preset_mode` assigns `self._percentage = None`. -/
structure FanState where
  is_on : Bool
  percentage : Option Nat
  oscillating : Bool
  preset_mode : Option String
  available : Bool
deriving DecidableEq

/-- `TasmotaIRFan.__init__` state variables (fan.py lines 58–63). -/
def fanInit : FanState :=
  { is_on := false, percentage := some 0, oscillating := false,
    preset_mode := none, available := true }

/-- `_send_ir_command`: a missing key logs and returns without any request;
otherwise the request is made and availability reflects its outcome.  The
second component records the IR-code key actually sent, `none` when no
outbound request was performed. -/
def fanSendIR (s : FanState) (codes : List String) (o : HttpOutcome)
    (key : String) : FanState × Option String :=
  if key ∈ codes then ({ s with available := sendOutcomeOk o }, some key)
  else (s, none)

/-- `async_turn_off`: send the `"power"` code, then force the off state. -/
def fanTurnOff (s : FanState) (codes : List String) (o : HttpOutcome) :
    FanState × Option String :=
  let r := fanSendIR s codes o "power"
  ({ r.1 with is_on := false, percentage := some 0, preset_mode := none }, r.2)

/-- Python's `round` on the exact value `a / d`: round half to even.  For
fan.py line 175 the float expression `percentage * speed_count / 100`
is IEEE-correctly rounded, and for every percentage `p ≤ 100` and any
remotely configurable speed count (`p·n < 2^52 / 100`) the float result is
close enough to the rational `p·n/100` that `round` agrees with exact
half-to-even rounding, so the embedding uses the exact form. -/
def pyRoundDiv (a d : Nat) : Nat :=
  if 2 * (a % d) < d then a / d
  else if d < 2 * (a % d) then a / d + 1
  else if a / d % 2 = 0 then a / d else a / d + 1

/-- The IR-code key for a speed level (`f"speed_{speed_level}"`). -/
def speedKey (l : Nat) : String := "speed_" ++ toString l

/-- The IR-code key for a preset mode (`f"preset_{preset_mode}"`). -/
def presetKey (m : String) : String := "preset_" ++ m

/-- `async_set_percentage` (fan.py lines 167–186). -/
def fanSetPercentage (s : FanState) (codes : List String) (n : Nat)
    (o : HttpOutcome) (p : Nat) : FanState × Option String :=
  if p = 0 then fanTurnOff s codes o
  else
    let level := max 1 (min n (pyRoundDiv (p * n) 100))
    let key := speedKey level
    if key ∈ codes then
      let r := fanSendIR s codes o key
      ({ r.1 with percentage := some p, is_on := true, preset_mode := none }, r.2)
    else (s, none)

/-- `async_set_preset_mode` (fan.py lines 188–203). -/
def fanSetPresetMode (s : FanState) (codes : List String)
    (presets : List String) (o : HttpOutcome) (m : String) :
    FanState × Option String :=
  if m ∈ presets then
    let key := presetKey m
    if key ∈ codes then
      let r := fanSendIR s codes o key
      ({ r.1 with preset_mode := some m, is_on := true, percentage := none }, r.2)
    else (s, none)
  else (s, none)

/-- `async_update` (fan.py lines 257–270): the `cmnd=Status` probe. -/
def fanUpdate (s : FanState) (o : HttpOutcome) : FanState :=
  { s with available := probeOutcomeOk o }

/-! ## Climate entity (climate.py `TasmotaIRClimate`) -/

/-- Mutable state of the climate entity. -/
structure ClimateState where
  hvac_mode : String
  current_temperature : Option Rat
  target_temperature : Rat
  fan_mode : String
  swing_mode : String
  available : Bool
deriving DecidableEq

/-- `TasmotaIRClimate.__init__` state variables (climate.py lines 80–86). -/
def climateInit : ClimateState :=
  { hvac_mode := "off", current_temperature := none, target_temperature := 25,
    fan_mode := "自动", swing_mode := "关闭", available := true }

/-- `_send_hvac_command` (climate.py lines 214–260): always sends (no key
lookup), availability reflects the outcome, all errors absorbed. -/
def climateSendHvac (s : ClimateState) (o : HttpOutcome) : ClimateState :=
  { s with available := sendOutcomeOk o }

/-- `async_set_temperature` (climate.py lines 186–194): a missing
temperature argument returns immediately; otherwise the stored target is
updated before the send. -/
def climateSetTemperature (s : ClimateState) (o : HttpOutcome)
    (t : Option Rat) : ClimateState :=
  match t with
  | none => s
  | some temp => climateSendHvac { s with target_temperature := temp } o

/-- `async_update` (climate.py lines 262–275). -/
def climateUpdate (s : ClimateState) (o : HttpOutcome) : ClimateState :=
  { s with available := probeOutcomeOk o }

/-! ## Button and remote entities (button.py, remote.py) -/

/-- State of a button entity (the only mutable field is availability). -/
structure ButtonState where
  available : Bool
deriving DecidableEq

/-- `TasmotaIRButton.__init__` (button.py lines 57–61). -/
def buttonInit : ButtonState := { available := true }

/-- `async_press` (button.py lines 128–165): build, encode and send the
command; availability reflects the outcome, all errors absorbed. -/
def buttonPress (_s : ButtonState) (o : HttpOutcome) : ButtonState :=
  { available := sendOutcomeOk o }

/-- State of the remote entity. -/
structure RemoteState where
  available : Bool
deriving DecidableEq

/-- `TasmotaIRRemote.__init__` (remote.py lines 36–43). -/
def remoteInit : RemoteState := { available := true }

/-- `TasmotaIRRemote._send_ir_command` (remote.py lines 81–124): an unknown
button name logs and returns without any request; otherwise the request is
made and availability reflects its outcome, all errors absorbed.  The
second component records the button actually sent, `none` when no outbound
request was performed. -/
def remoteSendIR (s : RemoteState) (buttons : List String) (o : HttpOutcome)
    (name : String) : RemoteState × Option String :=
  if name ∈ buttons then ({ s with available := sendOutcomeOk o }, some name)
  else (s, none)

/-- `TasmotaIRRemote.async_update` (remote.py lines 126–139): the
`cmnd=Status` probe. -/
def remoteUpdate (s : RemoteState) (o : HttpOutcome) : RemoteState :=
  { s with available := probeOutcomeOk o }

/-- `TasmotaIRButton.async_update` (button.py lines 167–180): the
`cmnd=Status` probe. -/
def buttonUpdate (s : ButtonState) (o : HttpOutcome) : ButtonState :=
  { s with available := probeOutcomeOk o }

/-! ## IR code configuration (C7) -/

/-- One configured IR code as read from the config entry: the `repeat`
field may be absent (`code.get("repeat", 0)`). -/
structure IRCodeConfig where
  protocol : List Nat
  bits : Int
  data : JData
  repeatOpt : Option Int
deriving DecidableEq

/-- The `ir_data` dict built by `_send_ir_command` (fan.py lines 222–227,
remote.py lines 91–96): `Repeat` defaults to `0` when the configuration
omits it. -/
def buildIRData (cfg : IRCodeConfig) : IRCommand :=
  { protocol := cfg.protocol, bits := cfg.bits, data := cfg.data,
    repeatCount := cfg.repeatOpt.getD 0 }

/-- The clamp function, as the spec words it: `clamp(x, lo, hi)`. -/
def clamp (x lo hi : Nat) : Nat := max lo (min hi x)

/-! ## Round-trip lemmas: hex digits -/

theorem hexVal_hexDigL : ∀ k, k < 16 → hexVal (hexDigL k) = k := by decide

theorem hexVal_hexDigU : ∀ k, k < 16 → hexVal (hexDigU k) = k := by decide

theorem isHexCode_hexDigL : ∀ k, k < 16 → isHexCode (hexDigL k) = true := by decide

theorem isHexCode_hexDigU : ∀ k, k < 16 → isHexCode (hexDigU k) = true := by decide

/-! ## Round-trip lemmas: percent encoding -/

theorem isUnreservedByte_not37 (b : Nat) (h : isUnreservedByte b = true) : b ≠ 37 := by
  intro hb; subst hb; simp [isUnreservedByte] at h

theorem percentDecode_cons_safe (b : Nat) (t : List Nat)
    (hb : isUnreservedByte b = true) :
    percentDecode (b :: t) = b :: percentDecode t := by
  have h37 : b ≠ 37 := isUnreservedByte_not37 b hb
  match t with
  | [] => simp [percentDecode]
  | [c] => simp [percentDecode]
  | c :: d :: t2 => simp [percentDecode, h37]

theorem percentDecode_encode (bs : List Nat) (h : ∀ b ∈ bs, b < 256) :
    percentDecode (percentEncode bs) = bs := by
  induction bs with
  | nil => simp [percentEncode, concatMap, percentDecode]
  | cons b t ih =>
    have hb : b < 256 := h b (List.mem_cons_self b t)
    have ht := ih (fun x hx => h x (List.mem_cons_of_mem b hx))
    show percentDecode (concatMap percentEncodeByte (b :: t)) = b :: t
    rw [concatMap]
    by_cases hu : isUnreservedByte b = true
    · rw [percentEncodeByte, if_pos hu]
      simpa [percentDecode_cons_safe b _ hu] using ht
    · rw [percentEncodeByte, if_neg hu]
      have h1 : b / 16 < 16 := by omega
      have h2 : b % 16 < 16 := by omega
      show percentDecode (37 :: hexDigU (b / 16) :: hexDigU (b % 16) ::
        concatMap percentEncodeByte t) = b :: t
      rw [percentDecode]
      simp only [isHexCode_hexDigU _ h1, isHexCode_hexDigU _ h2,
        hexVal_hexDigU _ h1, hexVal_hexDigU _ h2]
      simp only [if_pos rfl, Bool.and_self, if_true]
      simp only [percentEncode] at ht
      rw [ht]
      congr 1
      omega

/-! ## Round-trip lemmas: JSON string escaping -/

theorem parseUnits_escapeUnit (u : Nat) (hu : u < 65536) (tail us rest : List Nat)
    (ih : parseUnits tail = some (us, rest)) :
    parseUnits (escapeUnit u ++ tail) = some (u :: us, rest) := by
  by_cases h34 : u = 34
  · subst h34
    simp only [escapeUnit]
    norm_num
    rw [parseUnits.eq_def]
    simp [namedEscape, ih]
  by_cases h92 : u = 92
  · subst h92
    simp only [escapeUnit]
    norm_num
    rw [parseUnits.eq_def]
    simp [namedEscape, ih]
  by_cases h8 : u = 8
  · subst h8
    simp only [escapeUnit]
    norm_num
    rw [parseUnits.eq_def]
    simp [namedEscape, ih]
  by_cases h9 : u = 9
  · subst h9
    simp only [escapeUnit]
    norm_num
    rw [parseUnits.eq_def]
    simp [namedEscape, ih]
  by_cases h10 : u = 10
  · subst h10
    simp only [escapeUnit]
    norm_num
    rw [parseUnits.eq_def]
    simp [namedEscape, ih]
  by_cases h12 : u = 12
  · subst h12
    simp only [escapeUnit]
    norm_num
    rw [parseUnits.eq_def]
    simp [namedEscape, ih]
  by_cases h13 : u = 13
  · subst h13
    simp only [escapeUnit]
    norm_num
    rw [parseUnits.eq_def]
    simp [namedEscape, ih]
  by_cases hp : 32 ≤ u ∧ u ≤ 126
  · have he : escapeUnit u = [u] := by
      simp [escapeUnit, h34, h92, h8, h9, h10, h12, h13, hp]
    rw [he]
    show parseUnits (u :: tail) = _
    rw [parseUnits.eq_def]
    simp [h34, h92, ih, Nat.not_lt.mpr hp.1]
  · have he : escapeUnit u = 92 :: 117 :: toHex4 u := by
      simp [escapeUnit, h34, h92, h8, h9, h10, h12, h13, hp]
    rw [he, toHex4]
    have k1 : u / 4096 % 16 < 16 := Nat.mod_lt _ (by norm_num)
    have k2 : u / 256 % 16 < 16 := Nat.mod_lt _ (by norm_num)
    have k3 : u / 16 % 16 < 16 := Nat.mod_lt _ (by norm_num)
    have k4 : u % 16 < 16 := Nat.mod_lt _ (by norm_num)
    show parseUnits (92 :: 117 :: _ :: _ :: _ :: _ :: tail) = _
    rw [parseUnits.eq_def]
    simp only [isHexCode_hexDigL _ k1, isHexCode_hexDigL _ k2,
      isHexCode_hexDigL _ k3, isHexCode_hexDigL _ k4, ih]
    norm_num [hexQuad, hexVal_hexDigL _ k1, hexVal_hexDigL _ k2,
      hexVal_hexDigL _ k3, hexVal_hexDigL _ k4]
    omega

theorem parseUnits_escape_list (us : List Nat) (hus : ∀ u ∈ us, u < 65536)
    (rest : List Nat) :
    parseUnits (concatMap escapeUnit us ++ (34 :: rest)) = some (us, rest) := by
  induction us with
  | nil =>
    rw [concatMap, List.nil_append, parseUnits.eq_def]
    simp
  | cons u t ih =>
    rw [concatMap, List.append_assoc]
    exact parseUnits_escapeUnit u (hus u (List.mem_cons_self u t)) _ t rest
      (ih (fun x hx => hus x (List.mem_cons_of_mem u hx)))

theorem combineSurrogates_cons_notHigh (c : Nat) (t : List Nat)
    (hc : ¬(55296 ≤ c ∧ c ≤ 56319)) :
    combineSurrogates (c :: t) = c :: combineSurrogates t := by
  match t with
  | [] => simp [combineSurrogates]
  | l :: t2 =>
    rw [combineSurrogates]
    rw [if_neg (by tauto)]

theorem combineSurrogates_cons_pair (h l : Nat) (t2 : List Nat)
    (hp : 55296 ≤ h ∧ h ≤ 56319 ∧ 56320 ≤ l ∧ l ≤ 57343) :
    combineSurrogates (h :: l :: t2) =
      (65536 + (h - 55296) * 1024 + (l - 56320)) :: combineSurrogates t2 := by
  rw [combineSurrogates.eq_def]
  simp only []
  rw [if_pos hp]

theorem utf16Units_lt (c : Nat) (hc : ValidScalar c) :
    ∀ u ∈ utf16Units c, u < 65536 := by
  intro u hu
  rw [utf16Units] at hu
  rcases hc with h | h
  · rw [if_pos (by omega)] at hu
    simp at hu; omega
  · by_cases hlt : c < 65536
    · rw [if_pos hlt] at hu; simp at hu; omega
    · rw [if_neg hlt] at hu
      simp at hu
      rcases hu with h1 | h1 <;> omega

theorem concatMap_units_lt (s : List Nat) (hs : ValidString s) :
    ∀ u ∈ concatMap utf16Units s, u < 65536 := by
  induction s with
  | nil => simp [concatMap]
  | cons c t ih =>
    intro u hu
    rw [concatMap] at hu
    rcases List.mem_append.1 hu with h | h
    · exact utf16Units_lt c (hs c (List.mem_cons_self c t)) u h
    · exact ih (fun x hx => hs x (List.mem_cons_of_mem c hx)) u h

theorem combineSurrogates_units (s : List Nat) (hs : ValidString s) :
    combineSurrogates (concatMap utf16Units s) = s := by
  induction s with
  | nil => simp [concatMap, combineSurrogates]
  | cons c t ih =>
    have hc : ValidScalar c := hs c (List.mem_cons_self c t)
    have ht := ih (fun x hx => hs x (List.mem_cons_of_mem c hx))
    rw [concatMap]
    by_cases hlt : c < 65536
    · rw [utf16Units, if_pos hlt]
      have hns : ¬(55296 ≤ c ∧ c ≤ 56319) := by
        rcases hc with h | h <;> omega
      show combineSurrogates (c :: concatMap utf16Units t) = c :: t
      rw [combineSurrogates_cons_notHigh c _ hns, ht]
    · rw [utf16Units, if_neg hlt]
      have hc2 : c < 1114112 := by rcases hc with h | h <;> omega
      rw [List.cons_append, List.cons_append, List.nil_append]
      rw [combineSurrogates_cons_pair _ _ _ (by omega)]
      rw [ht]
      simp only [List.cons.injEq]
      exact ⟨by omega, trivial⟩

theorem parseJString_jsonString (s : List Nat) (hs : ValidString s)
    (rest : List Nat) :
    parseJString (jsonString s ++ rest) = some (s, rest) := by
  have hu := concatMap_units_lt s hs
  have h1 : jsonString s ++ rest = 34 :: (escapeString s ++ (34 :: rest)) := by
    simp [jsonString]
  rw [h1, parseJString]
  rw [if_pos rfl]
  rw [escapeString, parseUnits_escape_list _ hu rest]
  simp [combineSurrogates_units s hs]

/-! ## Round-trip lemmas: decimal integers -/

/-- The next input character (if any) is not a decimal digit, so a digit
run ends exactly here. -/
def nonDigitHead : List Nat → Prop
  | [] => True
  | d :: _ => d < 48 ∨ 57 < d

theorem natDigitsAux_digits : ∀ f n, ∀ d ∈ natDigitsAux f n, 48 ≤ d ∧ d ≤ 57 := by
  intro f
  induction f with
  | zero => intro n d hd; simp [natDigitsAux] at hd
  | succ f ih =>
    intro n d hd
    rw [natDigitsAux] at hd
    by_cases hn : n = 0
    · simp [hn] at hd
    · rw [if_neg hn] at hd
      rcases List.mem_append.1 hd with h | h
      · exact ih _ _ h
      · simp at h; omega

theorem natDigitsAux_ne_nil (f n : Nat) (hf : 0 < f) (hn : 0 < n) :
    natDigitsAux f n ≠ [] := by
  match f, hf with
  | f + 1, _ =>
    rw [natDigitsAux, if_neg (by omega)]
    simp

theorem natDigits_cons (n : Nat) :
    ∃ d ds, natDigits n = d :: ds ∧ 48 ≤ d ∧ d ≤ 57 ∧
      ∀ x ∈ natDigits n, 48 ≤ x ∧ x ≤ 57 := by
  rw [natDigits]
  by_cases hn : n = 0
  · exact ⟨48, [], by simp [hn], by omega, by omega, by simp [hn]⟩
  · rw [if_neg hn]
    obtain ⟨d, ds, hds⟩ :=
      List.exists_cons_of_ne_nil (natDigitsAux_ne_nil n n (by omega) (by omega))
    have hdig := natDigitsAux_digits n n
    refine ⟨d, ds, hds, ?_, ?_, hdig⟩
    · exact (hdig d (by rw [hds]; exact List.mem_cons_self d ds)).1
    · exact (hdig d (by rw [hds]; exact List.mem_cons_self d ds)).2

theorem parseNatGo_nonDigit (acc : Nat) (xs : List Nat) (h : nonDigitHead xs) :
    parseNatGo acc xs = (acc, xs) := by
  match xs with
  | [] => rw [parseNatGo]
  | d :: rest =>
    simp [nonDigitHead] at h
    rw [parseNatGo, if_neg (by omega)]

theorem parseNatGo_digitList :
    ∀ (ds : List Nat) (acc : Nat) (rest : List Nat),
      (∀ d ∈ ds, 48 ≤ d ∧ d ≤ 57) → nonDigitHead rest →
      parseNatGo acc (ds ++ rest) =
        (List.foldl (fun a d => a * 10 + (d - 48)) acc ds, rest) := by
  intro ds
  induction ds with
  | nil => intro acc rest _ hr; simpa using parseNatGo_nonDigit acc rest hr
  | cons d t ih =>
    intro acc rest hds hr
    have hd := hds d (List.mem_cons_self d t)
    rw [List.cons_append, parseNatGo, if_pos hd]
    rw [ih _ _ (fun x hx => hds x (List.mem_cons_of_mem d hx)) hr]
    simp

theorem foldl_natDigitsAux :
    ∀ (f n acc : Nat), n < 10 ^ f →
      List.foldl (fun a d => a * 10 + (d - 48)) acc (natDigitsAux f n) =
        acc * 10 ^ (natDigitsAux f n).length + n := by
  intro f
  induction f with
  | zero =>
    intro n acc h
    have hn : n = 0 := by simpa using h
    subst hn
    simp [natDigitsAux]
  | succ f ih =>
    intro n acc h
    by_cases hn : n = 0
    · subst hn; simp [natDigitsAux]
    · rw [natDigitsAux, if_neg hn, List.foldl_append]
      have hdiv : n / 10 < 10 ^ f := by
        rw [pow_succ] at h
        omega
      rw [ih _ acc hdiv]
      simp only [List.foldl_cons, List.foldl_nil, List.length_append,
        List.length_cons, List.length_nil, Nat.zero_add]
      rw [pow_succ]
      have h48 : n % 10 + 48 - 48 = n % 10 := by omega
      rw [h48]
      have hsplit :
          (acc * 10 ^ (natDigitsAux f (n / 10)).length + n / 10) * 10 + n % 10 =
            acc * (10 ^ (natDigitsAux f (n / 10)).length * 10) +
              (n / 10 * 10 + n % 10) := by ring
      rw [hsplit]
      have hdm : n / 10 * 10 + n % 10 = n := by omega
      rw [hdm]

theorem parseNat_natDigits (n : Nat) (rest : List Nat) (hr : nonDigitHead rest) :
    parseNat (natDigits n ++ rest) = some (n, rest) := by
  by_cases hn : n = 0
  · subst hn
    rw [natDigits, if_pos rfl, List.singleton_append]
    simp only [parseNat]
    rw [if_pos (by omega)]
    rw [parseNatGo, if_pos (by omega)]
    rw [parseNatGo_nonDigit _ _ hr]
  · obtain ⟨d, ds, hds, hd1, hd2, hall⟩ := natDigits_cons n
    rw [hds, List.cons_append]
    simp only [parseNat]
    rw [if_pos (by omega)]
    rw [← List.cons_append, ← hds]
    rw [natDigits, if_neg hn]
    rw [parseNatGo_digitList _ _ _ (by rw [natDigits, if_neg hn] at hall; exact hall) hr]
    rw [foldl_natDigitsAux n n 0 (Nat.lt_pow_self (by norm_num) n)]
    simp

theorem parseInt_cons_minus (rest : List Nat) :
    parseInt (45 :: rest) =
      (parseNat rest).map (fun p => (-(p.1 : Int), p.2)) := by
  show (if 45 = 45 then (parseNat rest).map (fun p => (-(p.1 : Int), p.2))
    else (parseNat (45 :: rest)).map (fun p => ((p.1 : Int), p.2))) = _
  rw [if_pos rfl]

theorem parseInt_cons_digit (c : Nat) (h : ¬c = 45) (rest : List Nat) :
    parseInt (c :: rest) =
      (parseNat (c :: rest)).map (fun p => ((p.1 : Int), p.2)) := by
  show (if c = 45 then (parseNat rest).map (fun p => (-(p.1 : Int), p.2))
    else (parseNat (c :: rest)).map (fun p => ((p.1 : Int), p.2))) = _
  rw [if_neg h]

theorem parseInt_serializeInt (i : Int) (rest : List Nat) (hr : nonDigitHead rest) :
    parseInt (serializeInt i ++ rest) = some (i, rest) := by
  rw [serializeInt]
  by_cases hi : i < 0
  · rw [if_pos hi, List.cons_append, parseInt_cons_minus]
    rw [parseNat_natDigits _ _ hr]
    have hval : -(i.natAbs : Int) = i := by omega
    simp only [Option.map]
    rw [hval]
  · rw [if_neg hi]
    obtain ⟨d, ds, hds, hd1, hd2, _⟩ := natDigits_cons i.toNat
    rw [hds, List.cons_append, parseInt_cons_digit d (by omega)]
    rw [← List.cons_append, ← hds, parseNat_natDigits _ _ hr]
    have hval : ((i.toNat : Nat) : Int) = i := by omega
    simp [hval]

/-! ## Round-trip lemmas: the full object -/

theorem expectChunk_append : ∀ (pat rest : List Nat),
    expectChunk pat (pat ++ rest) = some rest := by
  intro pat
  induction pat with
  | nil => intro rest; rw [List.nil_append, expectChunk]
  | cons p ps ih =>
    intro rest
    rw [List.cons_append, expectChunk, if_pos rfl]
    exact ih rest

theorem expectChunk_self (pat : List Nat) : expectChunk pat pat = some [] := by
  have h := expectChunk_append pat []
  rwa [List.append_nil] at h

theorem parseJData_cons (c : Nat) (rest : List Nat) :
    parseJData (c :: rest) =
      if c = 34 then (parseJString (c :: rest)).map (fun p => (JData.s p.1, p.2))
      else (parseInt (c :: rest)).map (fun p => (JData.i p.1, p.2)) := rfl

theorem serializeInt_cons (n : Int) :
    ∃ c cs, serializeInt n = c :: cs ∧ (c = 45 ∨ (48 ≤ c ∧ c ≤ 57)) := by
  rw [serializeInt]
  by_cases hn : n < 0
  · exact ⟨45, natDigits n.natAbs, by rw [if_pos hn], Or.inl rfl⟩
  · obtain ⟨d, ds, hds, hd1, hd2, _⟩ := natDigits_cons n.toNat
    exact ⟨d, ds, by rw [if_neg hn, hds], Or.inr ⟨hd1, hd2⟩⟩

theorem parseJData_serialize (d : JData) (hd : ValidData d) (rest : List Nat)
    (hr : nonDigitHead rest) :
    parseJData (serializeJData d ++ rest) = some (d, rest) := by
  cases d with
  | s str =>
    rw [serializeJData]
    have h1 : jsonString str ++ rest = 34 :: (escapeString str ++ (34 :: rest)) := by
      simp [jsonString]
    rw [h1, parseJData_cons, if_pos rfl, ← h1]
    rw [parseJString_jsonString str hd rest]
    rfl
  | i n =>
    rw [serializeJData]
    obtain ⟨c, cs, hcs, hc⟩ := serializeInt_cons n
    rw [hcs, List.cons_append, parseJData_cons, if_neg (by omega)]
    rw [← List.cons_append, ← hcs, parseInt_serializeInt n rest hr]
    rfl

theorem nonDigitHead_append44 (t rest : List Nat) :
    nonDigitHead ((44 :: t) ++ rest) := by
  rw [List.cons_append]
  exact Or.inl (by norm_num)

theorem parseIRCommand_jsonDumpsIR (c : IRCommand) (hp : ValidString c.protocol)
    (hd : ValidData c.data) : parseIRCommand (jsonDumpsIR c) = some c := by
  have hData : strCodes ",\"Data\":" = 44 :: strCodes "\"Data\":" := by decide
  have hRep : strCodes ",\"Repeat\":" = 44 :: strCodes "\"Repeat\":" := by decide
  have hClose : strCodes "\x7d" = [125] := by decide
  rw [jsonDumpsIR, parseIRCommand]
  simp only [List.append_assoc]
  rw [expectChunk_append, Option.some_bind]
  rw [parseJString_jsonString _ hp, Option.some_bind]
  rw [expectChunk_append, Option.some_bind]
  rw [parseInt_serializeInt _ _ (by rw [hData]; exact nonDigitHead_append44 _ _),
    Option.some_bind]
  rw [expectChunk_append, Option.some_bind]
  rw [parseJData_serialize _ hd _ (by rw [hRep]; exact nonDigitHead_append44 _ _),
    Option.some_bind]
  rw [expectChunk_append, Option.some_bind]
  rw [parseInt_serializeInt _ _ (by rw [hClose]; exact Or.inr (by norm_num)),
    Option.some_bind]
  rw [expectChunk_self, Option.some_bind]
  rw [if_pos rfl]

/-! ## The encoder output is ASCII (needed for percent round-trip) -/

theorem hexDigL_lt (k : Nat) (hk : k < 16) : hexDigL k < 256 := by
  rw [hexDigL]; split_ifs <;> omega

theorem escapeUnit_lt (u : Nat) : ∀ x ∈ escapeUnit u, x < 256 := by
  intro x hx
  rw [escapeUnit] at hx
  split_ifs at hx with h1 h2 h3 h4 h5 h6 h7 h8
  · simp at hx; omega
  · simp at hx; omega
  · simp at hx; omega
  · simp at hx; omega
  · simp at hx; omega
  · simp at hx; omega
  · simp at hx; omega
  · simp at hx; omega
  · simp [toHex4] at hx
    rcases hx with h | h | h | h | h | h <;> subst h
    · omega
    · omega
    · exact hexDigL_lt _ (Nat.mod_lt _ (by norm_num))
    · exact hexDigL_lt _ (Nat.mod_lt _ (by norm_num))
    · exact hexDigL_lt _ (Nat.mod_lt _ (by norm_num))
    · exact hexDigL_lt _ (Nat.mod_lt _ (by norm_num))

theorem concatMap_lt (f : Nat → List Nat) (h : ∀ c, ∀ x ∈ f c, x < 256) :
    ∀ (l : List Nat), ∀ x ∈ concatMap f l, x < 256 := by
  intro l
  induction l with
  | nil => simp [concatMap]
  | cons a t ih =>
    intro x hx
    rw [concatMap] at hx
    rcases List.mem_append.1 hx with hx | hx
    · exact h a x hx
    · exact ih x hx

theorem jsonString_lt (s : List Nat) : ∀ x ∈ jsonString s, x < 256 := by
  intro x hx
  rw [jsonString] at hx
  rcases hx with _ | hx
  · omega
  · rename_i hx
    rcases List.mem_append.1 hx with h | h
    · exact concatMap_lt escapeUnit escapeUnit_lt _ x h
    · simp at h; omega

theorem natDigits_lt (n : Nat) : ∀ x ∈ natDigits n, x < 256 := by
  intro x hx
  obtain ⟨d, ds, hds, hd1, hd2, hall⟩ := natDigits_cons n
  have := hall x hx
  omega

theorem serializeInt_lt (i : Int) : ∀ x ∈ serializeInt i, x < 256 := by
  intro x hx
  rw [serializeInt] at hx
  split_ifs at hx
  · rcases hx with _ | hx
    · omega
    · rename_i hx; exact natDigits_lt _ x hx
  · exact natDigits_lt _ x hx

theorem serializeJData_lt (d : JData) : ∀ x ∈ serializeJData d, x < 256 := by
  intro x hx
  cases d with
  | s str => exact jsonString_lt str x hx
  | i n => exact serializeInt_lt n x hx

theorem jsonDumpsIR_lt (c : IRCommand) : ∀ x ∈ jsonDumpsIR c, x < 256 := by
  intro x hx
  rw [jsonDumpsIR] at hx
  simp only [List.append_assoc, List.mem_append] at hx
  rcases hx with h | h | h | h | h | h | h | h | h
  · have : ∀ y ∈ strCodes "\x7b\"Protocol\":", y < 256 := by decide
    exact this x h
  · exact jsonString_lt _ x h
  · have : ∀ y ∈ strCodes ",\"Bits\":", y < 256 := by decide
    exact this x h
  · exact serializeInt_lt _ x h
  · have : ∀ y ∈ strCodes ",\"Data\":", y < 256 := by decide
    exact this x h
  · exact serializeJData_lt _ x h
  · have : ∀ y ∈ strCodes ",\"Repeat\":", y < 256 := by decide
    exact this x h
  · exact serializeInt_lt _ x h
  · have : ∀ y ∈ strCodes "\x7d", y < 256 := by decide
    exact this x h

/-! ## Helper lemmas about entity string keys -/

theorem str_data_append (a b : String) : (a ++ b).data = a.data ++ b.data := by
  cases a; cases b; rfl

theorem speedKey_ne_power (l : Nat) : speedKey l ≠ "power" := by
  intro h
  have h2 := congrArg String.data h
  rw [speedKey, str_data_append] at h2
  have h3 : "speed_".data = ['s', 'p', 'e', 'e', 'd', '_'] := rfl
  have h4 : "power".data = ['p', 'o', 'w', 'e', 'r'] := rfl
  rw [h3, h4] at h2
  simp at h2

/-! ## Claim theorems -/

/-- Claim C1: for a fan set-percentage call with `0 < p ≤ 100` and
`speed_count = n`, the resolved speed level — whose key `speed_<level>` is
the one sent when configured — is `clamp(round(p·n/100), 1, n)`, where
`round` is Python's banker's rounding as computed by fan.py line 174–175. -/
theorem fan_percentage_resolves_clamped_round
    (s : FanState) (codes : List String) (n : Nat) (o : HttpOutcome) (p : Nat)
    (h1 : 0 < p) (h2 : p ≤ 100) :
    (fanSetPercentage s codes n o p).2 =
      (if speedKey (clamp (pyRoundDiv (p * n) 100) 1 n) ∈ codes
       then some (speedKey (clamp (pyRoundDiv (p * n) 100) 1 n)) else none) := by
  rw [fanSetPercentage, if_neg (by omega)]
  simp only [clamp]
  by_cases hk : speedKey (max 1 (min n (pyRoundDiv (p * n) 100))) ∈ codes
  · simp [fanSendIR, hk]
  · simp [hk]

/-- Witness for C1 at `p = 75`, `n = 3`: level 2 resolved and sent. -/
theorem fan_percentage_resolves_clamped_round_witness :
    (fanSetPercentage fanInit ["speed_2"] 3 HttpOutcome.timeout 75).2 =
      (if speedKey (clamp (pyRoundDiv (75 * 3) 100) 1 3) ∈ ["speed_2"]
       then some (speedKey (clamp (pyRoundDiv (75 * 3) 100) 1 3)) else none) :=
  fan_percentage_resolves_clamped_round fanInit ["speed_2"] 3
    HttpOutcome.timeout 75 (by decide) (by decide)

/-- Claim C3: a failed command send (transport error, timeout, 4xx/5xx
status flagged by `raise_for_status`, or unparseable body) sets the
availability flag false with the error absorbed (every `SendError` is
caught and becomes `available = false`), and a 2xx response with parseable
body sets it true; the flag written by the fan and climate senders is
exactly this outcome. -/
theorem send_outcome_availability (o : HttpOutcome) (s : FanState)
    (codes : List String) (key : String) (cs : ClimateState)
    (hk : key ∈ codes) :
    ((fanSendIR s codes o key).1.available = sendOutcomeOk o) ∧
    ((climateSendHvac cs o).available = sendOutcomeOk o) ∧
    (∀ e, sendAttempt o = Except.error e → sendOutcomeOk o = false) ∧
    ((o = HttpOutcome.transportError ∨ o = HttpOutcome.timeout) →
      sendOutcomeOk o = false) ∧
    (∀ st b, o = HttpOutcome.response st b → 400 ≤ st → st < 600 →
      sendOutcomeOk o = false) ∧
    (∀ st, o = HttpOutcome.response st false → sendOutcomeOk o = false) ∧
    (∀ st, o = HttpOutcome.response st true → 200 ≤ st → st ≤ 299 →
      sendOutcomeOk o = true) := by
  refine ⟨by simp [fanSendIR, hk], rfl, ?_, ?_, ?_, ?_, ?_⟩
  · intro e he; rw [sendOutcomeOk, he]
  · rintro (rfl | rfl) <;> rfl
  · rintro st b rfl h4 h6
    have hr : raiseForStatusErrors st = true := by
      simp [raiseForStatusErrors]; omega
    simp [sendOutcomeOk, sendAttempt, hr]
  · rintro st rfl
    by_cases hr : raiseForStatusErrors st = true <;>
      simp [sendOutcomeOk, sendAttempt, hr]
  · rintro st rfl h2 h3
    have hr : raiseForStatusErrors st = false := by
      simp [raiseForStatusErrors]; omega
    simp [sendOutcomeOk, sendAttempt, hr]

/-- Witness for C3: a timeout leaves the fan entity unavailable. -/
theorem send_outcome_availability_witness :
    sendOutcomeOk HttpOutcome.timeout = false ∧
    (fanSendIR fanInit ["a"] HttpOutcome.timeout "a").1.available = false := by
  have h := send_outcome_availability HttpOutcome.timeout fanInit ["a"] "a"
    climateInit (by decide)
  exact ⟨h.2.2.2.1 (Or.inr rfl), h.1.trans (h.2.2.2.1 (Or.inr rfl))⟩

/-- Claim C4: `p = 0` takes the turn-off path, which sends the `"power"`
code (or nothing when it is not configured) and never a `speed_<level>`
key. -/
theorem fan_zero_percentage_powers_off (s : FanState) (codes : List String)
    (n : Nat) (o : HttpOutcome) :
    fanSetPercentage s codes n o 0 = fanTurnOff s codes o ∧
    ((fanSetPercentage s codes n o 0).2 = some "power" ∨
      (fanSetPercentage s codes n o 0).2 = none) ∧
    (∀ l : Nat, (fanSetPercentage s codes n o 0).2 ≠ some (speedKey l)) := by
  have h0 : fanSetPercentage s codes n o 0 = fanTurnOff s codes o := by
    rw [fanSetPercentage, if_pos rfl]
  refine ⟨h0, ?_, ?_⟩
  · rw [h0, fanTurnOff]
    by_cases hk : "power" ∈ codes
    · left; simp [fanSendIR, hk]
    · right; simp [fanSendIR, hk]
  · intro l heq
    rw [h0, fanTurnOff] at heq
    by_cases hk : "power" ∈ codes
    · simp [fanSendIR, hk] at heq
      exact speedKey_ne_power l heq.symm
    · simp [fanSendIR, hk] at heq

/-- Claim C7: the encoded object's `Repeat` field is the configured value,
defaulting to 0 when the configuration omits it (`code.get("repeat", 0)`). -/
theorem build_ir_repeat_defaults_to_zero (cfg : IRCodeConfig) :
    (buildIRData cfg).repeatCount = cfg.repeatOpt.getD 0 := rfl

/-- Counterexample to claim C6: the periodic reachability probe
(`async_update`) never parses the response body — a 200 response whose
body is unparseable still sets the availability flag to true, although the
claim requires body parseability for every outbound call. -/
theorem probe_available_despite_unparseable_body :
    (fanUpdate fanInit (HttpOutcome.response 200 false)).available = true ∧
    (climateUpdate climateInit (HttpOutcome.response 200 false)).available = true := by
  exact ⟨rfl, rfl⟩

/-- Claim C6 (amended): an outbound call is concluded a success — and the
availability flag set true — only when the transport reports a non-error
status (not 4xx/5xx, the statuses `raise_for_status` flags) and, for
command sends, the response body is parseable; the reachability probe
issued by the periodic update concludes success from the status alone,
without requiring a parseable body. -/
theorem outbound_success_iff_status_ok (st : Nat) (b : Bool) (o : HttpOutcome)
    (s : FanState) (cs : ClimateState) :
    (sendOutcomeOk (HttpOutcome.response st b) = true ↔
      (¬(400 ≤ st ∧ st < 600) ∧ b = true)) ∧
    (probeOutcomeOk (HttpOutcome.response st b) = true ↔ ¬(400 ≤ st ∧ st < 600)) ∧
    sendOutcomeOk HttpOutcome.transportError = false ∧
    sendOutcomeOk HttpOutcome.timeout = false ∧
    probeOutcomeOk HttpOutcome.transportError = false ∧
    probeOutcomeOk HttpOutcome.timeout = false ∧
    (fanUpdate s o).available = probeOutcomeOk o ∧
    (climateUpdate cs o).available = probeOutcomeOk o := by
  refine ⟨?_, ?_, rfl, rfl, rfl, rfl, rfl, rfl⟩
  · by_cases hr : 400 ≤ st ∧ st < 600
    · have h1 : raiseForStatusErrors st = true := by simp [raiseForStatusErrors, hr]
      simp [sendOutcomeOk, sendAttempt, h1, hr]
    · have h1 : raiseForStatusErrors st = false := by simp [raiseForStatusErrors, hr]
      cases b <;> simp [sendOutcomeOk, sendAttempt, h1, hr]
  · by_cases hr : 400 ≤ st ∧ st < 600
    · have h1 : raiseForStatusErrors st = true := by simp [raiseForStatusErrors, hr]
      simp [probeOutcomeOk, probeAttempt, h1, hr]
    · have h1 : raiseForStatusErrors st = false := by simp [raiseForStatusErrors, hr]
      simp [probeOutcomeOk, probeAttempt, h1, hr]

/-- Claim C8: every entity kind constructs with the availability flag true,
and the flag can only turn false through an operation whose outcome
failed. -/
theorem entities_start_available (s : FanState) :
    fanInit.available = true ∧ climateInit.available = true ∧
    buttonInit.available = true ∧ remoteInit.available = true ∧
    (∀ codes o key, (fanSendIR s codes o key).1.available = false →
      (s.available = false ∨ sendOutcomeOk o = false)) ∧
    (∀ o, (fanUpdate s o).available = false → probeOutcomeOk o = false) ∧
    (∀ (cs : ClimateState) o, (climateSendHvac cs o).available = false →
      sendOutcomeOk o = false) ∧
    (∀ (cs : ClimateState) o, (climateUpdate cs o).available = false →
      probeOutcomeOk o = false) ∧
    (∀ (bs : ButtonState) o, (buttonPress bs o).available = false →
      sendOutcomeOk o = false) ∧
    (∀ (bs : ButtonState) o, (buttonUpdate bs o).available = false →
      probeOutcomeOk o = false) ∧
    (∀ (rs : RemoteState) buttons o name,
      (remoteSendIR rs buttons o name).1.available = false →
      (rs.available = false ∨ sendOutcomeOk o = false)) ∧
    (∀ (rs : RemoteState) o, (remoteUpdate rs o).available = false →
      probeOutcomeOk o = false) := by
  refine ⟨rfl, rfl, rfl, rfl, ?_, ?_, ?_, ?_, ?_, ?_, ?_, ?_⟩
  · intro codes o key h
    rw [fanSendIR] at h
    by_cases hk : key ∈ codes
    · rw [if_pos hk] at h
      exact Or.inr h
    · rw [if_neg hk] at h
      exact Or.inl h
  · intro o h; exact h
  · intro cs o h; exact h
  · intro cs o h; exact h
  · intro bs o h; exact h
  · intro bs o h; exact h
  · intro rs buttons o name h
    rw [remoteSendIR] at h
    by_cases hk : name ∈ buttons
    · rw [if_pos hk] at h
      exact Or.inr h
    · rw [if_neg hk] at h
      exact Or.inl h
  · intro rs o h; exact h

/-- Witness for C8: the freshly constructed fan and remote are available,
and a timed-out send is the only way either got marked unavailable. -/
theorem entities_start_available_witness :
    fanInit.available = true ∧
    (fanInit.available = false ∨ sendOutcomeOk HttpOutcome.timeout = false) ∧
    (remoteInit.available = false ∨ sendOutcomeOk HttpOutcome.timeout = false) := by
  have h := entities_start_available fanInit
  refine ⟨h.1, h.2.2.2.2.1 ["k"] HttpOutcome.timeout "k" (by decide), ?_⟩
  exact h.2.2.2.2.2.2.2.2.2.2.1 remoteInit ["k"] HttpOutcome.timeout "k" (by decide)

/-- Claim C9: a fan set-percentage or set-preset-mode call whose resolved
key is not configured performs no outbound request and leaves the whole
entity state (percentage, on/off, preset mode, availability) unchanged. -/
theorem fan_missing_key_leaves_state_unchanged
    (s : FanState) (codes presets : List String) (n : Nat) (o : HttpOutcome)
    (p : Nat) (m : String) :
    (0 < p → speedKey (clamp (pyRoundDiv (p * n) 100) 1 n) ∉ codes →
      fanSetPercentage s codes n o p = (s, none)) ∧
    (presetKey m ∉ codes → fanSetPresetMode s codes presets o m = (s, none)) := by
  constructor
  · intro hp hk
    rw [fanSetPercentage, if_neg (by omega)]
    simp only [clamp] at hk
    simp [hk]
  · intro hk
    rw [fanSetPresetMode]
    by_cases hm : m ∈ presets
    · rw [if_pos hm]
      simp [hk]
    · rw [if_neg hm]

/-- Witness for C9: `p = 50`, `n = 3` resolves `speed_2`; with no codes
configured neither handler changes anything. -/
theorem fan_missing_key_leaves_state_unchanged_witness :
    fanSetPercentage fanInit [] 3 HttpOutcome.timeout 50 = (fanInit, none) ∧
    fanSetPresetMode fanInit [] ["x"] HttpOutcome.timeout "x" = (fanInit, none) := by
  have h := fan_missing_key_leaves_state_unchanged fanInit [] ["x"] 3
    HttpOutcome.timeout 50 "x"
  exact ⟨h.1 (by decide) (by decide), h.2 (by decide)⟩

/-- Claim C10: with the resolved speed key configured, set-percentage
stores the requested percentage and turns the fan on regardless of the
send outcome, and set-temperature stores the requested target regardless
of the send outcome; a failed send additionally marks the entity
unavailable. -/
theorem state_updates_survive_failed_send
    (s : FanState) (codes : List String) (n : Nat) (o : HttpOutcome) (p : Nat)
    (cs : ClimateState) (t : Rat)
    (h1 : 0 < p) (h2 : p ≤ 100)
    (hk : speedKey (clamp (pyRoundDiv (p * n) 100) 1 n) ∈ codes) :
    ((fanSetPercentage s codes n o p).1.percentage = some p) ∧
    ((fanSetPercentage s codes n o p).1.is_on = true) ∧
    (sendOutcomeOk o = false → (fanSetPercentage s codes n o p).1.available = false) ∧
    ((climateSetTemperature cs o (some t)).target_temperature = t) ∧
    (sendOutcomeOk o = false → (climateSetTemperature cs o (some t)).available = false) := by
  simp only [clamp] at hk
  refine ⟨?_, ?_, ?_, ?_, ?_⟩
  · rw [fanSetPercentage, if_neg (by omega)]
    simp [fanSendIR, hk]
  · rw [fanSetPercentage, if_neg (by omega)]
    simp [fanSendIR, hk]
  · intro hfail
    rw [fanSetPercentage, if_neg (by omega)]
    simp [fanSendIR, hk, hfail]
  · rfl
  · intro hfail
    simp [climateSetTemperature, climateSendHvac, hfail]

/-- Witness for C10: a timed-out send still stores percentage 75 / target
20 and marks both entities unavailable. -/
theorem state_updates_survive_failed_send_witness :
    ((fanSetPercentage fanInit ["speed_2"] 3 HttpOutcome.timeout 75).1.percentage = some 75) ∧
    ((fanSetPercentage fanInit ["speed_2"] 3 HttpOutcome.timeout 75).1.is_on = true) ∧
    (sendOutcomeOk HttpOutcome.timeout = false →
      (fanSetPercentage fanInit ["speed_2"] 3 HttpOutcome.timeout 75).1.available = false) ∧
    ((climateSetTemperature climateInit HttpOutcome.timeout (some 20)).target_temperature = 20) ∧
    (sendOutcomeOk HttpOutcome.timeout = false →
      (climateSetTemperature climateInit HttpOutcome.timeout (some 20)).available = false) :=
  state_updates_survive_failed_send fanInit ["speed_2"] 3 HttpOutcome.timeout 75
    climateInit 20 (by decide) (by decide) (by decide)

/-- Claim C2: for every InfraredCommand (protocol a Unicode string, integer
bits, string-or-integer data, repeat ≥ 0), JSON-serializing the
Protocol/Bits/Data/Repeat object, percent-encoding it into the command
string, then percent-decoding and JSON-parsing the encoded part yields an
object with identical protocol/bits/data/repeat fields. -/
theorem ir_command_encode_roundtrip (c : IRCommand)
    (hp : ValidString c.protocol) (hd : ValidData c.data)
    (hr : 0 ≤ c.repeatCount) :
    irCommandString c = strCodes "cmnd=IRsend%20" ++ percentEncode (jsonDumpsIR c) ∧
    parseIRCommand (percentDecode (percentEncode (jsonDumpsIR c))) = some c := by
  refine ⟨rfl, ?_⟩
  rw [percentDecode_encode _ (jsonDumpsIR_lt c)]
  exact parseIRCommand_jsonDumpsIR c hp hd

/-- Witness for C2: the NEC example command round-trips. -/
theorem ir_command_encode_roundtrip_witness :
    irCommandString ⟨strCodes "NEC", 32, JData.s (strCodes "0x44BB01FE"), 0⟩ =
      strCodes "cmnd=IRsend%20" ++
        percentEncode (jsonDumpsIR ⟨strCodes "NEC", 32, JData.s (strCodes "0x44BB01FE"), 0⟩) ∧
    parseIRCommand (percentDecode (percentEncode
        (jsonDumpsIR ⟨strCodes "NEC", 32, JData.s (strCodes "0x44BB01FE"), 0⟩))) =
      some ⟨strCodes "NEC", 32, JData.s (strCodes "0x44BB01FE"), 0⟩ :=
  ir_command_encode_roundtrip ⟨strCodes "NEC", 32, JData.s (strCodes "0x44BB01FE"), 0⟩
    (by decide) (by decide) (by decide)

/-- Claim C5: the example command (NEC, 32 bits, data `0x44BB01FE`,
repeat 0) encodes to the command string `cmnd=IRsend%20<enc>` whose
encoded part is exactly the percent-encoding of the whitespace-free JSON
text with fields in the order Protocol, Bits, Data, Repeat. -/
theorem nec_example_command_string :
    jsonDumpsIR ⟨strCodes "NEC", 32, JData.s (strCodes "0x44BB01FE"), 0⟩ =
      strCodes "\x7b\"Protocol\":\"NEC\",\"Bits\":32,\"Data\":\"0x44BB01FE\",\"Repeat\":0\x7d" ∧
    irCommandString ⟨strCodes "NEC", 32, JData.s (strCodes "0x44BB01FE"), 0⟩ =
      strCodes "cmnd=IRsend%20" ++
        percentEncode
          (strCodes "\x7b\"Protocol\":\"NEC\",\"Bits\":32,\"Data\":\"0x44BB01FE\",\"Repeat\":0\x7d") := by
  decide
